import Mathlib

/-!
# fxrq: command-line foreign-exchange quotes

A shallow embedding of `fxrq.go` and theorems about it.

Go strings are embedded as `String`; every byte the program inspects (`,`, `.`,
`/`, and the letters of key names) is ASCII, so working on characters agrees
with working on the UTF-8 bytes.  Slices are lists (a nil slice and an empty
slice are both `[]`), maps are association lists with pairwise distinct keys,
and an `error` result is the `.error` side of `Except`.

Everything the program reaches outside its own source (the file system, the
fuzzy finder, the HTTP transport, standard input, the byte-level JSON and CSV
scanners of the standard library) is a field of `World`.
-/

namespace Fxrq

/-! ## Go values -/

/-- A float64, kept as its IEEE-754 bit pattern.  The program never computes
with one: it stores what the JSON decoder produced and prints it. -/
structure Float64 where
  bits : Nat
deriving DecidableEq, Repr

/-- A Go `map[string]V`: keys are pairwise distinct. -/
abbrev GoMap (V : Type) := AList (fun _ : String => V)

/-- A JSON document as `encoding/json` scans it; the members of an object are
in document order and may repeat a key. -/
inductive JValue where
  | null
  | bool (b : Bool)
  | num (f : Float64)
  | str (s : String)
  | arr (elems : List JValue)
  | obj (members : List (String × JValue))

/-- The `map[string]interface{}` that `encoding/json` builds from the members
of an object: members are stored in document order, a repeated key overwrites. -/
def JValue.toMap (members : List (String × JValue)) : GoMap JValue :=
  members.foldl (fun m kv => m.insert kv.1 kv.2) ∅

/-- Go `error` values, by origin. -/
inductive GoError where
  /-- Made by `errors.New` or `fmt.Errorf` in this program: the message. -/
  | text (msg : String)
  /-- Returned by `os.Open`, `filepath.Abs` or another system call. -/
  | os (msg : String)
  /-- Returned by `encoding/json`: the input does not start with a well-formed
  JSON value (`json.SyntaxError`, `io.ErrUnexpectedEOF`). -/
  | jsonMalformed
  /-- Returned by `encoding/json`: a value does not fit the Go type
  (`json.UnmarshalTypeError`). -/
  | jsonType
  /-- Returned by `encoding/csv`. -/
  | csv (msg : String)
  /-- The error `io.EOF`. -/
  | eof
  /-- Returned by the fuzzy finder or by `fmt.Scanln`. -/
  | other (msg : String)
deriving DecidableEq, Repr

/-- Run-time panics. -/
inductive Crash where
  /-- Nil pointer dereference, or a method call on a nil interface value. -/
  | nilDereference
  /-- Index out of range. -/
  | indexOutOfRange
  /-- An explicit `panic(err)`. -/
  | panicked (e : GoError)
deriving DecidableEq, Repr

/-- How a run of the program, or of a part that can stop it, ends early. -/
inductive Halt where
  /-- Ended by `os.Exit(code)`. -/
  | exit (code : Nat)
  /-- Ended by a panic (the Go runtime exits with status 2). -/
  | crash (c : Crash)
deriving DecidableEq, Repr

deriving instance DecidableEq for Except

/-- What `client.Do` gives back. -/
inductive HttpOutcome where
  /-- No response: `resp == nil`, `err != nil`. -/
  | transportError (e : GoError)
  /-- A response with its status code and body. -/
  | response (status : Nat) (body : String)
deriving DecidableEq, Repr

/-! ## strings and path/filepath -/

/-- Pieces of `s` between occurrences of `sep`; one more piece than separators. -/
def splitOnChar (sep : Char) : List Char → List (List Char)
  | [] => [[]]
  | c :: cs =>
    if c = sep then [] :: splitOnChar sep cs
    else
      match splitOnChar sep cs with
      | [] => [[c]]
      | piece :: pieces => (c :: piece) :: pieces

/-- Go `strings.Split(s, sep)` for a separator of one character. -/
def stringsSplit (s : String) (sep : Char) : List String :=
  (splitOnChar sep s.data).map String.mk

/-- Go `strings.Join(elems, sep)`. -/
def stringsJoin : List String → String → String
  | [], _ => ""
  | [e], _ => e
  | e :: rest, sep => e ++ sep ++ stringsJoin rest sep

/-- The loop of `filepath.Ext`, run over the reversed path: walk back from the
last character until a path separator, return the suffix from the first dot met. -/
def extScan : List Char → List Char → List Char
  | [], _ => []
  | c :: before, suffix =>
    if c = '/' then []
    else if c = '.' then c :: suffix
    else extScan before (c :: suffix)

/-- Go `filepath.Ext(path)` on a system whose path separator is `/`. -/
def filepathExt (path : String) : String :=
  String.mk (extScan path.data.reverse [])

/-! ## The world outside the program -/

/-- A row of the currency table (`type Currency`). -/
structure Currency where
  Symbol : String
  Iso : String
  Region : String
  Name : String
deriving DecidableEq, Repr

/-- Everything the program reaches outside its own source. -/
structure World where
  /-- Go `filepath.Abs`. -/
  abs : String → Except GoError String
  /-- Whether `os.Stat(path)` returns a nil error. -/
  stat : String → Bool
  /-- Go `os.Open(path)`: the content of the file, or the error. -/
  openFile : String → Except GoError String
  /-- The scanner of `encoding/json`: the first JSON value of a text, which is
  all that `Decode` reads (what follows that value is never looked at); where
  the text does not start with a well-formed value, the error that `Decode`
  returns (`io.EOF` for an empty text, a syntax error otherwise). -/
  jsonValue : String → Except GoError JValue
  /-- The reader of `encoding/csv`: every record of a text, or the first error. -/
  csvReadAll : String → Except GoError (List (List String))
  /-- The embedded file `embed/currencies.csv`. -/
  CurrenciesData : String
  /-- Whether `url.Parse` accepts a proxy URL. -/
  urlParse : String → Bool
  /-- Whether `http.NewRequest("GET", u, nil)` returns a request. -/
  newRequest : String → Bool
  /-- Go `client.Do`: the outcome of a GET of a URL, given the number of
  requests made before it. -/
  http : Nat → String → HttpOutcome
  /-- Go `fuzzyfinder.Find` over the table. -/
  find : List Currency → Except GoError Nat
  /-- Go `fuzzyfinder.FindMulti` over the table. -/
  findMulti : List Currency → Except GoError (List Nat)
  /-- The results of the successive `fmt.Scanln(&amount)` calls that complete
  before the interrupt signal arrives. -/
  stdin : List (Except GoError String)

/-! ## Config and command line -/

/-- The struct `Config`. -/
structure Config where
  BaseCurrency : String
  TargetCurrency : List String
  Amount : String
  CurCodeFile : String
  ProxyURL : String
  Endpoint : String
  ApiKey : String
deriving DecidableEq, Repr

/-- The zero value `Config{}`. -/
def Config.zero : Config :=
  { BaseCurrency := "", TargetCurrency := [], Amount := "", CurCodeFile := "",
    ProxyURL := "", Endpoint := "", ApiKey := "" }

/-- The fields of `Config`, in declaration order. -/
inductive ConfigField where
  | BaseCurrency | TargetCurrency | Amount | CurCodeFile | ProxyURL | Endpoint | ApiKey
deriving DecidableEq, Repr

/-- The JSON key of a field: its `json:"..."` tag, or the Go field name where
the field has no tag (`Amount`). -/
def ConfigField.jsonName : ConfigField → String
  | .BaseCurrency => "base_currency"
  | .TargetCurrency => "target_currency"
  | .Amount => "Amount"
  | .CurCodeFile => "currency_code_file"
  | .ProxyURL => "proxy_url"
  | .Endpoint => "endpoint"
  | .ApiKey => "api_key"

/-- The fields of `Config` as the decoder looks them up, in declaration order. -/
def configFields : List ConfigField :=
  [.BaseCurrency, .TargetCurrency, .Amount, .CurCodeFile, .ProxyURL, .Endpoint, .ApiKey]

/-- Case folding of `encoding/json` key matching: ASCII letters fold to upper
case, and the two non-ASCII characters whose simple case folding reaches an
ASCII letter (LATIN SMALL LETTER LONG S, KELVIN SIGN) fold to `S` and `K`.
Every other character folds to a non-ASCII one and is left as it is here, which
decides the same matches against the (ASCII) key names of `Config`. -/
def foldRune (c : Char) : Char :=
  if 'a'.toNat ≤ c.toNat ∧ c.toNat ≤ 'z'.toNat then Char.ofNat (c.toNat - 32)
  else if c.toNat = 0x17F then 'S'
  else if c.toNat = 0x212A then 'K'
  else c

/-- The folded form of a key: `foldRune` on every character. -/
def foldName (s : String) : String :=
  String.mk (s.data.map foldRune)

/-- The field an object key decodes into: an exact match of the JSON name
first, then the first field that matches under case folding; `none` for an
unknown key, which the decoder skips. -/
def findField (key : String) : Option ConfigField :=
  match configFields.find? (fun f => f.jsonName == key) with
  | some f => some f
  | none => configFields.find? (fun f => foldName f.jsonName == foldName key)

/-- Decoding a JSON value into a `string`: a string is stored, `null` leaves
the target as it is, anything else is a type error. -/
def decodeString (old : String) : JValue → Except GoError String
  | .str s => .ok s
  | .null => .ok old
  | _ => .error .jsonType

/-- The elements of a JSON array decoded into the elements of a slice, from
the first on; `backing` holds what the backing array of the slice has at those
places (the zero string beyond its end), which a `null` element leaves there. -/
def decodeElements : List String → List JValue → Except GoError (List String)
  | _, [] => .ok []
  | backing, v :: rest =>
    match decodeString (backing.headD "") v with
    | .error e => .error e
    | .ok s =>
      match decodeElements backing.tail rest with
      | .error e => .error e
      | .ok l => .ok (s :: l)

/-- Decoding a JSON value into a `[]string` whose backing array holds
`backing`.  An array is decoded element by element into the slice, which is
then cut to the number of elements; the result is the new slice and what its
backing array holds beyond it.  An empty array gives a fresh empty slice,
`null` the nil slice, anything else is a type error. -/
def decodeStrings (backing : List String) : JValue → Except GoError (List String × List String)
  | .arr [] => .ok ([], [])
  | .arr elems =>
    match decodeElements backing elems with
    | .error e => .error e
    | .ok l => .ok (l, backing.drop elems.length)
  | .null => .ok ([], [])
  | _ => .error .jsonType

/-- Decoding a JSON value into a `[][]string` that is nil before: every inner
slice is new. -/
def decodeRecords : JValue → Except GoError (List (List String))
  | .arr elems => elems.mapM (fun v => (decodeStrings [] v).map Prod.fst)
  | .null => .ok []
  | _ => .error .jsonType

/-- The `Config` being decoded, with what the backing array of its
`TargetCurrency` holds beyond the slice (left there by an earlier, longer
array under a repeated key). -/
structure Decoding where
  config : Config
  spare : List String

/-- One member of the object decoded into a `Config`. -/
def decodeMember (st : Decoding) (member : String × JValue) : Except GoError Decoding :=
  match findField member.1 with
  | none => .ok st
  | some .BaseCurrency =>
    (decodeString st.config.BaseCurrency member.2).map
      (fun s => { st with config := { st.config with BaseCurrency := s } })
  | some .TargetCurrency =>
    (decodeStrings (st.config.TargetCurrency ++ st.spare) member.2).map
      (fun r => { config := { st.config with TargetCurrency := r.1 }, spare := r.2 })
  | some .Amount =>
    (decodeString st.config.Amount member.2).map
      (fun s => { st with config := { st.config with Amount := s } })
  | some .CurCodeFile =>
    (decodeString st.config.CurCodeFile member.2).map
      (fun s => { st with config := { st.config with CurCodeFile := s } })
  | some .ProxyURL =>
    (decodeString st.config.ProxyURL member.2).map
      (fun s => { st with config := { st.config with ProxyURL := s } })
  | some .Endpoint =>
    (decodeString st.config.Endpoint member.2).map
      (fun s => { st with config := { st.config with Endpoint := s } })
  | some .ApiKey =>
    (decodeString st.config.ApiKey member.2).map
      (fun s => { st with config := { st.config with ApiKey := s } })

/-- The members of an object decoded one after the other; the first type error
is the one reported. -/
def decodeMembers (st : Decoding) : List (String × JValue) → Except GoError Decoding
  | [] => .ok st
  | member :: rest =>
    match decodeMember st member with
    | .ok st1 => decodeMembers st1 rest
    | .error e => .error e

/-- Go `json.NewDecoder(f).Decode(&config)` on a zero `Config`, after the
scanner has accepted the document: an object is decoded member by member,
`null` leaves the zero value, any other value is a type error. -/
def decodeConfig : JValue → Except GoError Config
  | .obj members =>
    match decodeMembers { config := Config.zero, spare := [] } members with
    | .ok st => .ok st.config
    | .error e => .error e
  | .null => .ok Config.zero
  | _ => .error .jsonType

/-- The paths `NewConfig` tries when no file is named. -/
def searchPaths : List String :=
  ["./.fxrq.json", "~/.fxrq.json", "~/.config/fxrq/fxrq.json"]

/-- The search loop of `NewConfig`: the first path that `filepath.Abs` expands
and `os.Stat` finds, or `""`. -/
def findConfig (w : World) : List String → String
  | [] => ""
  | path :: rest =>
    match w.abs path with
    | .ok expandedPath => if w.stat expandedPath then expandedPath else findConfig w rest
    | .error _ => findConfig w rest

/-- The part of `NewConfig` after the path is settled: open and decode. -/
def loadConfig (w : World) (filePath : String) : Except GoError Config :=
  match w.openFile filePath with
  | .error e => .error e
  | .ok content =>
    match w.jsonValue content with
    | .error e => .error e
    | .ok doc => decodeConfig doc

/-- The function `NewConfig`. -/
def NewConfig (w : World) (filePath : String) : Except GoError Config :=
  if filePath = "" then
    let found := findConfig w searchPaths
    if found = "" then .error (.text "config file path not provided")
    else loadConfig w found
  else loadConfig w filePath

/-- The flags given on a command line: `none` for a flag that is absent. -/
structure CmdLine where
  config : Option String
  base : Option String
  target : Option String
  amount : Option String
  curcodefile : Option String
  endpoint : Option String
  apikey : Option String
  proxyurl : Option String
deriving DecidableEq, Repr

/-- The command line with no flag at all. -/
def CmdLine.none : CmdLine :=
  { config := Option.none, base := Option.none, target := Option.none, amount := Option.none,
    curcodefile := Option.none, endpoint := Option.none, apikey := Option.none,
    proxyurl := Option.none }

/-- The values of the flag variables after `flag.Parse()`. -/
structure Flags where
  configFile : String
  baseCurrency : String
  targetCurrency : String
  amount : String
  curCodeFile : String
  endpoint : String
  apiKey : String
  proxyUrl : String
deriving DecidableEq, Repr

/-- The eight `flag.String` declarations and `flag.Parse()`: a flag that is
given has its value, an absent one its declared default. -/
def parseFlags (cmd : CmdLine) : Flags :=
  { configFile := cmd.config.getD ""
    baseCurrency := cmd.base.getD ""
    targetCurrency := cmd.target.getD ""
    amount := cmd.amount.getD ""
    curCodeFile := cmd.curcodefile.getD ""
    endpoint := cmd.endpoint.getD "exchangerate.host"
    apiKey := cmd.apikey.getD ""
    proxyUrl := cmd.proxyurl.getD "" }

/-- The branch of `flags` taken when `NewConfig` returns an error. -/
def flagsOnly (f : Flags) : Config :=
  { BaseCurrency := f.baseCurrency
    Amount := f.amount
    CurCodeFile := f.curCodeFile
    Endpoint := f.endpoint
    ApiKey := f.apiKey
    ProxyURL := f.proxyUrl
    TargetCurrency := if f.targetCurrency = "" then [] else stringsSplit f.targetCurrency ',' }

/-- The statement `if *baseCurrency != "" { config.BaseCurrency = *baseCurrency }`. -/
def setBaseCurrency (config : Config) (v : String) : Config :=
  if v ≠ "" then { config with BaseCurrency := v } else config

/-- The statement `if *targetCurrency != "" { config.TargetCurrency = strings.Split(...) }`. -/
def setTargetCurrency (config : Config) (v : String) : Config :=
  if v ≠ "" then { config with TargetCurrency := stringsSplit v ',' } else config

/-- The statement `if *amount != "" { config.Amount = *amount }`. -/
def setAmount (config : Config) (v : String) : Config :=
  if v ≠ "" then { config with Amount := v } else config

/-- The statement `if *curCodeFile != "" { config.CurCodeFile = *curCodeFile }`. -/
def setCurCodeFile (config : Config) (v : String) : Config :=
  if v ≠ "" then { config with CurCodeFile := v } else config

/-- The statement `if *endpoint != "" { config.Endpoint = *endpoint }`. -/
def setEndpoint (config : Config) (v : String) : Config :=
  if v ≠ "" then { config with Endpoint := v } else config

/-- The statement `if *apiKey != "" { config.ApiKey = *apiKey }`. -/
def setApiKey (config : Config) (v : String) : Config :=
  if v ≠ "" then { config with ApiKey := v } else config

/-- The statement `if *proxyUrl != "" { config.ProxyURL = *proxyUrl }`. -/
def setProxyURL (config : Config) (v : String) : Config :=
  if v ≠ "" then { config with ProxyURL := v } else config

/-- The branch of `flags` taken when `NewConfig` returns a `Config`: the seven
conditional assignments, in the order of the source. -/
def flagsOver (config : Config) (f : Flags) : Config :=
  setProxyURL
    (setApiKey
      (setEndpoint
        (setCurCodeFile
          (setAmount
            (setTargetCurrency (setBaseCurrency config f.baseCurrency) f.targetCurrency)
            f.amount)
          f.curCodeFile)
        f.endpoint)
      f.apiKey)
    f.proxyUrl

/-- The function `flags`. -/
def flags (w : World) (cmd : CmdLine) : Config :=
  let f := parseFlags cmd
  match NewConfig w f.configFile with
  | .error _ => flagsOnly f
  | .ok config => flagsOver config f

/-! ## Currency table -/

/-- The struct `CurrencyList`. -/
structure CurrencyList where
  currencies : List Currency
deriving DecidableEq, Repr

/-- The function `NewCurrencyList`. -/
def NewCurrencyList : CurrencyList :=
  { currencies := [] }

/-- The body of the loop of `convert`: `record[0]` to `record[3]`, a panic
where the record is shorter. -/
def convertRecord (record : List String) : Except Crash Currency :=
  match record[0]?, record[1]?, record[2]?, record[3]? with
  | some symbol, some iso, some name, some region =>
    .ok { Symbol := symbol, Iso := iso, Name := name, Region := region }
  | _, _, _, _ => .error .indexOutOfRange

/-- The loop of `convert`: currencies are appended in the order of the records. -/
def convertLoop : List (List String) → Except Crash (List Currency)
  | [] => .ok []
  | record :: rest =>
    match convertRecord record with
    | .error c => .error c
    | .ok currency =>
      match convertLoop rest with
      | .error c => .error c
      | .ok currencies => .ok (currency :: currencies)

/-- The method `convert`: the table built from the records replaces
`cl.currencies`. -/
def CurrencyList.convert (_cl : CurrencyList) (records : List (List String)) :
    Except Crash CurrencyList :=
  match convertLoop records with
  | .error c => .error c
  | .ok currencies => .ok { currencies := currencies }

/-- The method `readCSV`: the first record is read and dropped (`io.EOF` where
there is none), the others are returned. -/
def CurrencyList.readCSV (w : World) (content : String) : Except GoError (List (List String)) :=
  match w.csvReadAll content with
  | .error e => .error e
  | .ok [] => .error .eof
  | .ok (_ :: records) => .ok records

/-- The method `readJSON`. -/
def CurrencyList.readJSON (w : World) (content : String) : Except GoError (List (List String)) :=
  match w.jsonValue content with
  | .error e => .error e
  | .ok doc => decodeRecords doc

/-- The method `Read`: the file is opened first, then its extension decides. -/
def CurrencyList.Read (w : World) (filename : String) : Except GoError (List (List String)) :=
  match w.openFile filename with
  | .error e => .error e
  | .ok f =>
    if filepathExt filename = ".csv" then CurrencyList.readCSV w f
    else if filepathExt filename = ".json" then CurrencyList.readJSON w f
    else .error (.text ("unsupported file type: " ++ filepathExt filename))

/-- The method `Init`. -/
def CurrencyList.Init (w : World) (cl : CurrencyList) (filename : String) :
    Except Halt CurrencyList :=
  let read :=
    if filename ≠ "" then CurrencyList.Read w filename
    else CurrencyList.readCSV w w.CurrenciesData
  match read with
  | .error _ => .error (.exit 1)
  | .ok records =>
    match cl.convert records with
    | .error c => .error (.crash c)
    | .ok cl1 => .ok cl1

/-- The method `FuzzGetCode`. -/
def CurrencyList.FuzzGetCode (w : World) (cl : CurrencyList) : Except Halt String :=
  match w.find cl.currencies with
  | .error _ => .error (.exit 1)
  | .ok id =>
    match cl.currencies[id]? with
    | none => .error (.crash .indexOutOfRange)
    | some currency => .ok currency.Iso

/-- The loop of `FuzzGetCodes`. -/
def isoCodes (cl : CurrencyList) : List Nat → Except Halt (List String)
  | [] => .ok []
  | id :: ids =>
    match cl.currencies[id]? with
    | none => .error (.crash .indexOutOfRange)
    | some currency =>
      match isoCodes cl ids with
      | .error h => .error h
      | .ok codes => .ok (currency.Iso :: codes)

/-- The method `FuzzGetCodes`. -/
def CurrencyList.FuzzGetCodes (w : World) (cl : CurrencyList) : Except Halt (List String) :=
  match w.findMulti cl.currencies with
  | .error _ => .error (.exit 1)
  | .ok ids => isoCodes cl ids

/-! ## Endpoint -/

/-- The struct `Result`. -/
structure Result where
  Date : String
  Base : String
  Target : List String
  Rates : GoMap Float64
deriving DecidableEq

/-- The struct `ExchangeRateHost`. -/
structure ExchangeRateHost where
  Name : String
  URL : String
  APIKey : String
  ProxyURL : String
deriving DecidableEq, Repr

/-- The function `NewExchangeRateHost`. -/
def NewExchangeRateHost (apiKey proxyURL : String) : ExchangeRateHost :=
  { Name := "exchangerate.host"
    URL := "https://api.exchangerate.host/latest?base=%s&symbols=%s&amount=%s"
    APIKey := apiKey
    ProxyURL := proxyURL }

/-- The `fmt.Sprintf` of `Query`: the three `%s` verbs write their string
arguments as they are. -/
def queryURL (baseCurrency : String) (targetCurrency : List String) (amount : String) : String :=
  "https://api.exchangerate.host/latest?base=" ++ baseCurrency ++ "&symbols="
    ++ stringsJoin targetCurrency "," ++ "&amount=" ++ amount

/-- The body of the loop over `rates` in `convert2result`. -/
def ratesStep (rates : GoMap Float64) (entry : Σ _ : String, JValue) : GoMap Float64 :=
  match entry.2 with
  | .num vf => rates.insert entry.1 vf
  | _ => rates

/-- The loop over `rates` in `convert2result`, for one order of iteration. -/
def ratesLoop (entries : List (Σ _ : String, JValue)) : GoMap Float64 :=
  entries.foldl ratesStep ∅

/-- A response of `client.Do`. -/
structure Response where
  status : Nat
  body : String
deriving DecidableEq, Repr

/-- The map `respm` after `json.NewDecoder(resp.Body).Decode(&respm)`, whose
error is dropped: the map of an object, the nil map for anything else. -/
def decodeRespm (w : World) (body : String) : GoMap JValue :=
  match w.jsonValue body with
  | .ok (.obj members) => JValue.toMap members
  | _ => ∅

/-- The method `convert2result`; `resp` is `none` for a nil pointer, which
`resp.Body` dereferences. -/
def ExchangeRateHost.convert2result (_erh : ExchangeRateHost) (w : World)
    (resp : Option Response) (baseCurrency : String) (targetCurrency : List String) :
    Except Crash Result :=
  match resp with
  | none => .error .nilDereference
  | some r =>
    let respm := decodeRespm w r.body
    let date :=
      match respm.lookup "date" with
      | some (.str dateStr) => dateStr
      | _ => ""
    let rates :=
      match respm.lookup "rates" with
      | some (.obj members) => ratesLoop (JValue.toMap members).entries
      | _ => ∅
    .ok { Date := date, Base := baseCurrency, Target := targetCurrency, Rates := rates }

/-- The method `Query`, as the request number `n` of the run. -/
def ExchangeRateHost.Query (erh : ExchangeRateHost) (w : World) (n : Nat)
    (baseCurrency : String) (targetCurrency : List String) (amount : String) :
    Except Crash Result :=
  if erh.ProxyURL ≠ "" ∧ w.urlParse erh.ProxyURL = false then
    .error (.panicked (.other "url.Parse"))
  else
    let u := queryURL baseCurrency targetCurrency amount
    if w.newRequest u = false then
      -- `request` is nil and `client.Do` dereferences it
      .error .nilDereference
    else
      match w.http n u with
      | .transportError _ => erh.convert2result w none baseCurrency targetCurrency
      | .response status body =>
        erh.convert2result w (some { status := status, body := body })
          baseCurrency targetCurrency

/-- The values of the interface `Endpoint`: one implementation. -/
inductive Endpoint where
  | exchangeRateHost (erh : ExchangeRateHost)
deriving DecidableEq, Repr

/-- Dispatch of the interface method `Query`. -/
def Endpoint.Query (ep : Endpoint) (w : World) (n : Nat)
    (baseCurrency : String) (targetCurrency : List String) (amount : String) :
    Except Crash Result :=
  match ep with
  | .exchangeRateHost erh => erh.Query w n baseCurrency targetCurrency amount

/-- The function `CreateEndpoints`. -/
def CreateEndpoints (apiKey proxyURL : String) : GoMap Endpoint :=
  (∅ : GoMap Endpoint).insert "exchangerate.host"
    (.exchangeRateHost (NewExchangeRateHost apiKey proxyURL))

/-! ## main -/

/-- What a run does that the theorems speak about. -/
inductive Event where
  /-- A call of `Query` on an endpoint, with its arguments. -/
  | query (baseCurrency : String) (targetCurrency : List String) (amount : String)
  /-- The four lines `Date:`, `Base:`, `Target:`, `Rates:` of a result. -/
  | printResult (result : Result)
  /-- The line with the endpoint name at the start of `interactive`. -/
  | printEndpoint (name : String)
  /-- The separator line and `Enter amount: `. -/
  | prompt
deriving DecidableEq

/-- How a run ends. -/
inductive Ending where
  /-- The function `main` returns after the one-shot query: exit status 0. -/
  | returned
  /-- The function `main` receives the signal and returns: exit status 0. -/
  | interrupted
  /-- The run is stopped by `os.Exit` or a panic. -/
  | halted (h : Halt)
deriving DecidableEq, Repr

/-- A run: its events in order, and its ending. -/
structure Run where
  events : List Event
  ending : Ending
deriving DecidableEq

/-- The statement `result := ep.Query(...)` followed by the four prints; `ep`
is `none` for the nil interface, on which the call panics. -/
def queryAndPrint (w : World) (n : Nat) (ep : Option Endpoint)
    (baseCurrency : String) (targetCurrency : List String) (amount : String) :
    List Event × Option Crash :=
  match ep with
  | none => ([], some .nilDereference)
  | some e =>
    match e.Query w n baseCurrency targetCurrency amount with
    | .error c => ([.query baseCurrency targetCurrency amount], some c)
    | .ok result => ([.query baseCurrency targetCurrency amount, .printResult result], none)

/-- The `for` loop of `interactive`, over the results of the `Scanln` calls
that complete before the signal; the signal finds the loop waiting in the next
`Scanln`.  `n` counts the requests made so far. -/
def promptLoop (w : World) (ep : Option Endpoint) (baseCurrency : String)
    (targetCurrency : List String) : Nat → List (Except GoError String) → Run
  | _, [] => { events := [.prompt], ending := .interrupted }
  | n, .error _ :: rest =>
    let r := promptLoop w ep baseCurrency targetCurrency n rest
    { events := .prompt :: r.events, ending := r.ending }
  | n, .ok amount :: rest =>
    match queryAndPrint w n ep baseCurrency targetCurrency amount with
    | (evs, some c) => { events := .prompt :: evs, ending := .halted (.crash c) }
    | (evs, none) =>
      let r := promptLoop w ep baseCurrency targetCurrency (n + 1) rest
      { events := .prompt :: (evs ++ r.events), ending := r.ending }

/-- The base of `interactive`: picked with the finder where the `Config` has
none. -/
def pickBase (w : World) (cfg : Config) (cl : CurrencyList) : Except Halt String :=
  if cfg.BaseCurrency = "" then cl.FuzzGetCode w else .ok cfg.BaseCurrency

/-- The targets of `interactive`: picked with the finder where the `Config`
has none. -/
def pickTargets (w : World) (cfg : Config) (cl : CurrencyList) : Except Halt (List String) :=
  if cfg.TargetCurrency.length = 0 then cl.FuzzGetCodes w else .ok cfg.TargetCurrency

/-- The function `interactive`, run in its goroutine until the signal. -/
def interactive (w : World) (cfg : Config) (cl : CurrencyList) (ep : Option Endpoint) : Run :=
  match pickBase w cfg cl with
  | .error h => { events := [], ending := .halted h }
  | .ok baseCurrency =>
    match pickTargets w cfg cl with
    | .error h => { events := [], ending := .halted h }
    | .ok targetCurrency =>
      let r := promptLoop w ep baseCurrency targetCurrency 0 w.stdin
      { events := .printEndpoint cfg.Endpoint :: r.events, ending := r.ending }

/-- The first branch of the `if` of `main`: one query, its four prints, return. -/
def oneShot (w : World) (cfg : Config) (ep : Option Endpoint) : Run :=
  match queryAndPrint w 0 ep cfg.BaseCurrency cfg.TargetCurrency cfg.Amount with
  | (evs, some c) => { events := evs, ending := .halted (.crash c) }
  | (evs, none) => { events := evs, ending := .returned }

/-- The `if` of `main` that chooses between the two modes. -/
def runMode (w : World) (cfg : Config) (cl : CurrencyList) (ep : Option Endpoint) : Run :=
  if cfg.BaseCurrency.length ≠ 0 ∧ cfg.TargetCurrency.length ≠ 0 ∧ cfg.Amount.length ≠ 0 then
    oneShot w cfg ep
  else interactive w cfg cl ep

/-- The function `main` from the statement after `cfg = flags()`. -/
def mainWith (w : World) (cfg : Config) : Run :=
  match NewCurrencyList.Init w cfg.CurCodeFile with
  | .error h => { events := [], ending := .halted h }
  | .ok cl =>
    let eps := CreateEndpoints cfg.ApiKey cfg.ProxyURL
    let ep := eps.lookup cfg.Endpoint
    runMode w cfg cl ep

/-- The function `main`. -/
def main (w : World) (cmd : CmdLine) : Run :=
  mainWith w (flags w cmd)

/-- The `Query` events of a run, in order. -/
def Run.queries (r : Run) : List (String × List String × String) :=
  r.events.filterMap (fun e =>
    match e with
    | .query b t a => some (b, t, a)
    | _ => none)

/-- The number of positions of `s` at which `pat` starts. -/
def occurrencesIn (pat : List Char) : List Char → Nat
  | [] => if pat = [] then 1 else 0
  | c :: cs => (if pat.isPrefixOf (c :: cs) then 1 else 0) + occurrencesIn pat cs

/-- The number of positions of the string `s` at which the string `pat` starts. -/
def occurrences (pat s : String) : Nat :=
  occurrencesIn pat.data s.data

/-! ## Example worlds -/

/-- A config file: base, one target, an amount and an endpoint name. -/
def exampleConfigText : String :=
  "\x7b\"base_currency\":\"GBP\",\"target_currency\":[\"CHF\"],\"amount\":\"100\",\"endpoint\":\"fixer.io\"\x7d"

/-- The document of `exampleConfigText`. -/
def exampleConfigDoc : JValue :=
  .obj [("base_currency", .str "GBP"), ("target_currency", .arr [.str "CHF"]),
    ("amount", .str "100"), ("endpoint", .str "fixer.io")]

/-- A config file that is not valid JSON as a whole: an object, then a stray
closing brace and a word. -/
def exampleTrailingText : String :=
  "\x7b\"base_currency\":\"GBP\"\x7d\x7d garbage"

/-- The first JSON value of `exampleTrailingText`, which is all the decoder
reads. -/
def exampleTrailingDoc : JValue :=
  .obj [("base_currency", .str "GBP")]

/-- A provider response: a date, two numeric rates and one that is a string. -/
def exampleResponseText : String :=
  "\x7b\"date\":\"2024-01-02\",\"rates\":\x7b\"EUR\":91.2,\"JPY\":14400.5,\"XAU\":\"n/a\"\x7d\x7d"

/-- The float64 value 91.2. -/
def f91_2 : Float64 := ⟨0x4056CCCCCCCCCCCD⟩

/-- The float64 value 14400.5. -/
def f14400_5 : Float64 := ⟨0x40CC204000000000⟩

/-- The document of `exampleResponseText`. -/
def exampleResponseDoc : JValue :=
  .obj [("date", .str "2024-01-02"),
    ("rates", .obj [("EUR", .num f91_2), ("JPY", .num f14400_5), ("XAU", .str "n/a")])]

/-- An embedded table of two rows under its header. -/
def exampleCurrenciesData : String :=
  "symbol,iso,name,region\n€,EUR,Euro,Europe\n$,USD,US Dollar,United States\n"

/-- A world with the config files `/etc/fxrq.json` and `/etc/trailing.json`, a
file `notes.txt`, no other file, a provider that answers every request with `exampleResponseText`, a
finder that picks the first row, and the amount `50` typed once. -/
def exampleWorld : World :=
  { abs := fun path => .ok ("/home/user/" ++ path)
    stat := fun _ => false
    openFile := fun path =>
      if path = "/etc/fxrq.json" then .ok exampleConfigText
      else if path = "/etc/trailing.json" then .ok exampleTrailingText
      else if path = "notes.txt" then .ok "symbol,iso,name,region\n"
      else .error (.os ("open " ++ path ++ ": no such file or directory"))
    jsonValue := fun text =>
      if text = exampleConfigText then .ok exampleConfigDoc
      else if text = exampleTrailingText then .ok exampleTrailingDoc
      else if text = exampleResponseText then .ok exampleResponseDoc
      else if text = "" then .error .eof
      else .error .jsonMalformed
    csvReadAll := fun text =>
      if text = exampleCurrenciesData then
        .ok [["symbol", "iso", "name", "region"], ["€", "EUR", "Euro", "Europe"],
          ["$", "USD", "US Dollar", "United States"]]
      else .error (.csv "parse error")
    CurrenciesData := exampleCurrenciesData
    urlParse := fun _ => true
    newRequest := fun _ => true
    http := fun _ _ => .response 200 exampleResponseText
    find := fun _ => .ok 0
    findMulti := fun _ => .ok [1]
    stdin := [.ok "50"] }

/-- The table that `Init` builds from the embedded file of `exampleWorld`. -/
def exampleCatalog : CurrencyList :=
  { currencies :=
      [{ Symbol := "€", Iso := "EUR", Name := "Euro", Region := "Europe" },
       { Symbol := "$", Iso := "USD", Name := "US Dollar", Region := "United States" }] }

/-- The world `exampleWorld` with a network that is down. -/
def offlineWorld : World :=
  { exampleWorld with http := fun _ _ => .transportError (.other "dial tcp: no route to host") }

/-! ## Theorems -/

/-- The function `flags` where the config file loads. -/
theorem flags_of_ok (w : World) (cmd : CmdLine) (F : Config)
    (hF : NewConfig w (parseFlags cmd).configFile = .ok F) :
    flags w cmd = flagsOver F (parseFlags cmd) := by
  simp only [flags, hF]

/-- The function `flags` where `NewConfig` returns an error. -/
theorem flags_of_error (w : World) (cmd : CmdLine) (e : GoError)
    (hE : NewConfig w (parseFlags cmd).configFile = .error e) :
    flags w cmd = flagsOnly (parseFlags cmd) := by
  simp only [flags, hE]

theorem setBaseCurrency_eq (c : Config) (v : String) :
    setBaseCurrency c v = { c with BaseCurrency := if v ≠ "" then v else c.BaseCurrency } := by
  unfold setBaseCurrency; split_ifs <;> rfl

theorem setTargetCurrency_eq (c : Config) (v : String) :
    setTargetCurrency c v =
      { c with TargetCurrency := if v ≠ "" then stringsSplit v ',' else c.TargetCurrency } := by
  unfold setTargetCurrency; split_ifs <;> rfl

theorem setAmount_eq (c : Config) (v : String) :
    setAmount c v = { c with Amount := if v ≠ "" then v else c.Amount } := by
  unfold setAmount; split_ifs <;> rfl

theorem setCurCodeFile_eq (c : Config) (v : String) :
    setCurCodeFile c v = { c with CurCodeFile := if v ≠ "" then v else c.CurCodeFile } := by
  unfold setCurCodeFile; split_ifs <;> rfl

theorem setEndpoint_eq (c : Config) (v : String) :
    setEndpoint c v = { c with Endpoint := if v ≠ "" then v else c.Endpoint } := by
  unfold setEndpoint; split_ifs <;> rfl

theorem setApiKey_eq (c : Config) (v : String) :
    setApiKey c v = { c with ApiKey := if v ≠ "" then v else c.ApiKey } := by
  unfold setApiKey; split_ifs <;> rfl

theorem setProxyURL_eq (c : Config) (v : String) :
    setProxyURL c v = { c with ProxyURL := if v ≠ "" then v else c.ProxyURL } := by
  unfold setProxyURL; split_ifs <;> rfl

/-- The seven conditional assignments of `flags`, field by field. -/
theorem flagsOver_eq (F : Config) (C : Flags) :
    flagsOver F C =
      { BaseCurrency := if C.baseCurrency ≠ "" then C.baseCurrency else F.BaseCurrency
        TargetCurrency :=
          if C.targetCurrency ≠ "" then stringsSplit C.targetCurrency ',' else F.TargetCurrency
        Amount := if C.amount ≠ "" then C.amount else F.Amount
        CurCodeFile := if C.curCodeFile ≠ "" then C.curCodeFile else F.CurCodeFile
        Endpoint := if C.endpoint ≠ "" then C.endpoint else F.Endpoint
        ApiKey := if C.apiKey ≠ "" then C.apiKey else F.ApiKey
        ProxyURL := if C.proxyUrl ≠ "" then C.proxyUrl else F.ProxyURL } := by
  unfold flagsOver
  rw [setProxyURL_eq, setApiKey_eq, setEndpoint_eq, setCurCodeFile_eq, setAmount_eq,
    setTargetCurrency_eq, setBaseCurrency_eq]

/-- A file that cannot be opened makes `loadConfig` return the error of `os.Open`. -/
theorem loadConfig_of_open_error (w : World) (path : String) (e : GoError)
    (h : w.openFile path = .error e) : loadConfig w path = .error e := by
  simp only [loadConfig, h]

/-- A file whose content does not start with a well-formed JSON value makes
`loadConfig` return the error of the decoder. -/
theorem loadConfig_of_malformed (w : World) (path content : String) (e : GoError)
    (h : w.openFile path = .ok content) (hj : w.jsonValue content = .error e) :
    loadConfig w path = .error e := by
  simp only [loadConfig, h, hj]

/-- C1: when the config file loads as `F`, every field of the effective
`Config` is the parsed command-line value where that value is a non-empty
string and the value of `F` otherwise; `TargetCurrency` is the `-target` string
split on `,` (nothing trimmed) where it is non-empty, the list of `F` otherwise. -/
theorem flags_cli_shadows_file (w : World) (cmd : CmdLine) (F : Config)
    (hF : NewConfig w (parseFlags cmd).configFile = .ok F) :
    flags w cmd =
      { BaseCurrency :=
          if (parseFlags cmd).baseCurrency ≠ "" then (parseFlags cmd).baseCurrency
          else F.BaseCurrency
        TargetCurrency :=
          if (parseFlags cmd).targetCurrency ≠ "" then
            stringsSplit (parseFlags cmd).targetCurrency ','
          else F.TargetCurrency
        Amount := if (parseFlags cmd).amount ≠ "" then (parseFlags cmd).amount else F.Amount
        CurCodeFile :=
          if (parseFlags cmd).curCodeFile ≠ "" then (parseFlags cmd).curCodeFile
          else F.CurCodeFile
        Endpoint :=
          if (parseFlags cmd).endpoint ≠ "" then (parseFlags cmd).endpoint else F.Endpoint
        ApiKey := if (parseFlags cmd).apiKey ≠ "" then (parseFlags cmd).apiKey else F.ApiKey
        ProxyURL :=
          if (parseFlags cmd).proxyUrl ≠ "" then (parseFlags cmd).proxyUrl else F.ProxyURL } := by
  rw [flags_of_ok w cmd F hF]
  exact flagsOver_eq F (parseFlags cmd)

/-- C1 at `-config=/etc/fxrq.json -target="EUR, JPY" -endpoint=""`: the base,
amount and endpoint of the file stand, the targets are `EUR` and ` JPY`. -/
theorem flags_cli_shadows_file_witness :
    NewConfig exampleWorld "/etc/fxrq.json"
        = .ok { BaseCurrency := "GBP", TargetCurrency := ["CHF"], Amount := "100",
                CurCodeFile := "", ProxyURL := "", Endpoint := "fixer.io", ApiKey := "" }
      ∧ flags exampleWorld
          { CmdLine.none with
            config := some "/etc/fxrq.json", target := some "EUR, JPY", endpoint := some "" }
        = { BaseCurrency := "GBP", TargetCurrency := ["EUR", " JPY"], Amount := "100",
            CurCodeFile := "", ProxyURL := "", Endpoint := "fixer.io", ApiKey := "" } :=
  ⟨by decide,
   (flags_cli_shadows_file exampleWorld
      { CmdLine.none with
        config := some "/etc/fxrq.json", target := some "EUR, JPY", endpoint := some "" }
      { BaseCurrency := "GBP", TargetCurrency := ["CHF"], Amount := "100",
        CurCodeFile := "", ProxyURL := "", Endpoint := "fixer.io", ApiKey := "" }
      (by decide)).trans (by decide)⟩

/-- C2 (counterexample): with `-config=/nonexistent.json`, a file that cannot
be opened, `NewConfig` returns the error of `os.Open`, and yet `main` goes on
with the values of the command line: it issues the query and returns.  And
the file `/etc/trailing.json`, an object followed by a stray brace and a word,
is not valid JSON, and yet it loads: the decoder reads the object and stops. -/
theorem missing_config_is_not_fatal :
    NewConfig exampleWorld "/nonexistent.json"
        = .error (.os "open /nonexistent.json: no such file or directory")
      ∧ (main exampleWorld
          { CmdLine.none with
            config := some "/nonexistent.json", base := some "USD",
            target := some "EUR,JPY", amount := some "100" }).queries
        = [("USD", ["EUR", "JPY"], "100")]
      ∧ (main exampleWorld
          { CmdLine.none with
            config := some "/nonexistent.json", base := some "USD",
            target := some "EUR,JPY", amount := some "100" }).ending
        = .returned
      ∧ NewConfig exampleWorld "/etc/trailing.json"
        = .ok { BaseCurrency := "GBP", TargetCurrency := [], Amount := "", CurCodeFile := "",
                ProxyURL := "", Endpoint := "", ApiKey := "" } := by
  refine ⟨by decide, by decide, by decide, by decide⟩

/-- C2 (as amended): for a non-empty `-config` path whose file cannot be
opened, or whose content does not start with a well-formed JSON value (the
decoder reads one value and never looks at what follows it), `NewConfig`
returns that error, and `flags` then returns the `Config` made of the
command-line values alone, with no target where `-target` is empty. -/
theorem flags_falls_back_on_config_error (w : World) (cmd : CmdLine)
    (hpath : (parseFlags cmd).configFile ≠ "")
    (hbad : (∃ e, w.openFile (parseFlags cmd).configFile = .error e)
      ∨ (∃ content e, w.openFile (parseFlags cmd).configFile = .ok content
          ∧ w.jsonValue content = .error e)) :
    (∃ e, NewConfig w (parseFlags cmd).configFile = .error e)
      ∧ flags w cmd =
        { BaseCurrency := (parseFlags cmd).baseCurrency
          TargetCurrency :=
            if (parseFlags cmd).targetCurrency = "" then []
            else stringsSplit (parseFlags cmd).targetCurrency ','
          Amount := (parseFlags cmd).amount
          CurCodeFile := (parseFlags cmd).curCodeFile
          Endpoint := (parseFlags cmd).endpoint
          ApiKey := (parseFlags cmd).apiKey
          ProxyURL := (parseFlags cmd).proxyUrl } := by
  have hE : ∃ e, NewConfig w (parseFlags cmd).configFile = .error e := by
    unfold NewConfig
    rw [if_neg hpath]
    rcases hbad with ⟨e, he⟩ | ⟨content, e, hc, hj⟩
    · exact ⟨e, loadConfig_of_open_error w _ e he⟩
    · exact ⟨e, loadConfig_of_malformed w _ content e hc hj⟩
  refine ⟨hE, ?_⟩
  obtain ⟨e, he⟩ := hE
  rw [flags_of_error w cmd e he]
  rfl

/-- C2 (as amended) at `-config=/nonexistent.json -base=USD -target=EUR,JPY`. -/
theorem flags_falls_back_on_config_error_witness :
    (∃ e, NewConfig exampleWorld "/nonexistent.json" = .error e)
      ∧ flags exampleWorld
          { CmdLine.none with
            config := some "/nonexistent.json", base := some "USD", target := some "EUR,JPY" }
        = { BaseCurrency := "USD", TargetCurrency := ["EUR", "JPY"], Amount := "",
            CurCodeFile := "", ProxyURL := "", Endpoint := "exchangerate.host", ApiKey := "" } :=
  have h := flags_falls_back_on_config_error exampleWorld
    { CmdLine.none with
      config := some "/nonexistent.json", base := some "USD", target := some "EUR,JPY" }
    (by decide)
    (Or.inl ⟨.os "open /nonexistent.json: no such file or directory", by decide⟩)
  ⟨h.1, h.2.trans (by decide)⟩

/-- C5 (the code at the failing input): the file `/etc/fxrq.json` loads with
the endpoint `fixer.io`, and with no `-endpoint` flag the effective endpoint is
`exchangerate.host`; so it is for every world and every command line without
that flag, since the flag's default is a non-empty string. -/
theorem absent_endpoint_flag_overrides_file :
    (NewConfig exampleWorld "/etc/fxrq.json").map Config.Endpoint = .ok "fixer.io"
      ∧ (flags exampleWorld { CmdLine.none with config := some "/etc/fxrq.json" }).Endpoint
          = "exchangerate.host"
      ∧ ∀ (w : World) (cmd : CmdLine),
          (flags w { cmd with endpoint := none }).Endpoint = "exchangerate.host" := by
  refine ⟨by decide, by decide, ?_⟩
  intro w cmd
  cases hN : NewConfig w (parseFlags { cmd with endpoint := none }).configFile with
  | error e => rw [flags_of_error w _ e hN]; rfl
  | ok F =>
    rw [flags_of_ok w _ F hN, flagsOver_eq]
    show (if ("exchangerate.host" : String) ≠ "" then "exchangerate.host" else F.Endpoint) = _
    rw [if_pos (by decide)]

/-- The loop of `convert` on records of at least four fields. -/
theorem convertLoop_ok (records : List (List String)) (h : ∀ r ∈ records, 4 ≤ r.length) :
    ∃ currencies, convertLoop records = .ok currencies
      ∧ currencies.length = records.length
      ∧ ∀ (i : Nat) (r : List String), records[i]? = some r →
          ∃ symbol iso name region rest, r = symbol :: iso :: name :: region :: rest
            ∧ currencies[i]?
                = some { Symbol := symbol, Iso := iso, Name := name, Region := region } := by
  induction records with
  | nil => exact ⟨[], rfl, rfl, by intro i r hi; simp at hi⟩
  | cons record rest ih =>
    obtain ⟨cs, hcs, hlen, hfields⟩ := ih (fun r hr => h r (List.mem_cons_of_mem _ hr))
    have h4 := h record (List.mem_cons_self _ _)
    obtain ⟨symbol, iso, name, region, more, hrec⟩ :
        ∃ symbol iso name region more, record = symbol :: iso :: name :: region :: more := by
      match record, h4 with
      | a :: b :: c :: d :: more, _ => exact ⟨a, b, c, d, more, rfl⟩
    refine ⟨{ Symbol := symbol, Iso := iso, Name := name, Region := region } :: cs, ?_, ?_, ?_⟩
    · rw [hrec]
      simp only [convertLoop, convertRecord, List.getElem?_cons_zero, List.getElem?_cons_succ, hcs]
    · simp [hlen]
    · intro i r hi
      cases i with
      | zero =>
        simp only [List.getElem?_cons_zero, Option.some.injEq] at hi
        exact ⟨symbol, iso, name, region, more, by rw [← hi, hrec], by simp⟩
      | succ j =>
        simp only [List.getElem?_cons_succ] at hi
        obtain ⟨s, c, n, g, m, hr, hc⟩ := hfields j r hi
        exact ⟨s, c, n, g, m, hr, by simpa using hc⟩

/-- C7: on records that all have at least 4 fields, `convert` returns a table
of the same length and order, whose i-th currency has the first four fields of
the i-th record as `Symbol`, `Iso`, `Name` and `Region`; further fields are
ignored. -/
theorem convert_keeps_order_and_fields (cl : CurrencyList) (records : List (List String))
    (h : ∀ r ∈ records, 4 ≤ r.length) :
    ∃ cl1, cl.convert records = .ok cl1
      ∧ cl1.currencies.length = records.length
      ∧ ∀ (i : Nat) (r : List String), records[i]? = some r →
          ∃ symbol iso name region rest, r = symbol :: iso :: name :: region :: rest
            ∧ cl1.currencies[i]?
                = some { Symbol := symbol, Iso := iso, Name := name, Region := region } := by
  obtain ⟨cs, hcs, hlen, hfields⟩ := convertLoop_ok records h
  exact ⟨{ currencies := cs }, by simp only [CurrencyList.convert, hcs], hlen, hfields⟩

/-- C7 on two records, the second with a fifth field. -/
theorem convert_keeps_order_and_fields_witness :
    ∃ cl1, NewCurrencyList.convert
        [["€", "EUR", "Euro", "Europe"], ["$", "USD", "US Dollar", "United States", "extra"]]
          = .ok cl1
      ∧ cl1.currencies.length
          = [["€", "EUR", "Euro", "Europe"],
              ["$", "USD", "US Dollar", "United States", "extra"]].length
      ∧ ∀ (i : Nat) (r : List String),
          [["€", "EUR", "Euro", "Europe"],
            ["$", "USD", "US Dollar", "United States", "extra"]][i]? = some r →
          ∃ symbol iso name region rest, r = symbol :: iso :: name :: region :: rest
            ∧ cl1.currencies[i]?
                = some { Symbol := symbol, Iso := iso, Name := name, Region := region } :=
  convert_keeps_order_and_fields NewCurrencyList
    [["€", "EUR", "Euro", "Europe"], ["$", "USD", "US Dollar", "United States", "extra"]]
    (by decide)

/-- C9 (counterexample): `foo.txt` has an extension that is neither `.csv` nor
`.json`, and in a world without that file `Read` returns the error of
`os.Open`, not `unsupported file type: .txt`. -/
theorem read_missing_file_reports_open_error :
    filepathExt "foo.txt" = ".txt"
      ∧ CurrencyList.Read exampleWorld "foo.txt"
          = .error (.os "open foo.txt: no such file or directory")
      ∧ CurrencyList.Read exampleWorld "foo.txt"
          ≠ .error (.text "unsupported file type: .txt") := by
  refine ⟨by decide, by decide, by decide⟩

/-- C9 (as amended): for a file name whose extension is neither `.csv` nor
`.json`, `Read` returns an error and no records in every world; the error is
`unsupported file type: <ext>` where the file can be opened, and the error of
`os.Open` where it cannot. -/
theorem read_rejects_other_extensions (w : World) (filename : String)
    (hcsv : filepathExt filename ≠ ".csv") (hjson : filepathExt filename ≠ ".json") :
    (∃ e, CurrencyList.Read w filename = .error e)
      ∧ (∀ content, w.openFile filename = .ok content →
          CurrencyList.Read w filename
            = .error (.text ("unsupported file type: " ++ filepathExt filename)))
      ∧ (∀ e, w.openFile filename = .error e → CurrencyList.Read w filename = .error e) := by
  have hok : ∀ content, w.openFile filename = .ok content →
      CurrencyList.Read w filename
        = .error (.text ("unsupported file type: " ++ filepathExt filename)) := by
    intro content ho
    simp only [CurrencyList.Read, ho, if_neg hcsv, if_neg hjson]
  have herr : ∀ e, w.openFile filename = .error e → CurrencyList.Read w filename = .error e := by
    intro e ho
    simp only [CurrencyList.Read, ho]
  refine ⟨?_, hok, herr⟩
  cases ho : w.openFile filename with
  | error e => exact ⟨e, herr e ho⟩
  | ok content => exact ⟨_, hok content ho⟩

/-- C9 (as amended) at `notes.txt`, a file of `exampleWorld`. -/
theorem read_rejects_other_extensions_witness :
    exampleWorld.openFile "notes.txt" = .ok "symbol,iso,name,region\n"
      ∧ CurrencyList.Read exampleWorld "notes.txt"
          = .error (.text "unsupported file type: .txt") :=
  ⟨by decide,
   ((read_rejects_other_extensions exampleWorld "notes.txt" (by decide) (by decide)).2.1
      "symbol,iso,name,region\n" (by decide)).trans (by decide)⟩

/-- The rate stored under `k` after the loop of `convert2result` has run over
entries with pairwise distinct keys, starting from the map `acc`. -/
theorem foldl_ratesStep_lookup (entries : List (Σ _ : String, JValue)) :
    ∀ (acc : GoMap Float64), entries.NodupKeys → ∀ (k : String) (f : Float64),
      (entries.foldl ratesStep acc).lookup k = some f ↔
        List.dlookup k entries = some (.num f)
          ∨ ((∀ g, List.dlookup k entries ≠ some (.num g)) ∧ acc.lookup k = some f) := by
  induction entries with
  | nil =>
    intro acc _ k f
    simp
  | cons entry rest ih =>
    intro acc hnd k f
    obtain ⟨key, v⟩ := entry
    rw [List.nodupKeys_cons] at hnd
    obtain ⟨hnot, hrest⟩ := hnd
    rw [List.foldl_cons, ih _ hrest k f]
    by_cases hk : k = key
    · subst hk
      have hnone : List.dlookup k rest = none := List.dlookup_eq_none.mpr hnot
      rw [hnone, List.dlookup_cons_eq]
      cases v with
      | num x =>
        simp only [ratesStep, AList.lookup_insert]
        constructor
        · rintro (h | ⟨_, h⟩)
          · cases h
          · cases h; exact Or.inl rfl
        · rintro (h | ⟨hno, _⟩)
          · cases h; exact Or.inr ⟨by simp, rfl⟩
          · exact absurd rfl (hno x)
      | null => simp [ratesStep]
      | bool b => simp [ratesStep]
      | str s => simp [ratesStep]
      | arr l => simp [ratesStep]
      | obj l => simp [ratesStep]
    · rw [List.dlookup_cons_ne _ _ hk]
      have hacc : (ratesStep acc ⟨key, v⟩).lookup k = acc.lookup k := by
        cases v with
        | num x => simp only [ratesStep]; exact AList.lookup_insert_ne hk
        | null => rfl
        | bool b => rfl
        | str s => rfl
        | arr l => rfl
        | obj l => rfl
      rw [hacc]

/-- The loop of `convert2result` over a map: the rates are the numeric entries. -/
theorem ratesLoop_lookup (m : GoMap JValue) (k : String) (f : Float64) :
    (ratesLoop m.entries).lookup k = some f ↔ m.lookup k = some (.num f) := by
  unfold ratesLoop
  rw [foldl_ratesStep_lookup m.entries ∅ m.nodupKeys k f]
  constructor
  · rintro (h | ⟨_, h⟩)
    · exact h
    · simp at h
  · intro h
    exact Or.inl h

/-- C4: for a response whose body decodes to an object with an object under
`rates`, `convert2result` returns a result whose `Rates` maps a key to a number
exactly when the `rates` of the response map that key to that number; a key
whose value is not a number, or that `rates` lacks, is not a key of `Rates`. -/
theorem rates_are_the_numeric_entries (erh : ExchangeRateHost) (w : World)
    (status : Nat) (body baseCurrency : String) (targetCurrency : List String)
    (top rates : List (String × JValue))
    (hdoc : w.jsonValue body = .ok (.obj top))
    (hrates : (JValue.toMap top).lookup "rates" = some (.obj rates)) :
    ∃ result,
      erh.convert2result w (some { status := status, body := body }) baseCurrency targetCurrency
        = .ok result
      ∧ (∀ (k : String) (f : Float64),
          result.Rates.lookup k = some f ↔ (JValue.toMap rates).lookup k = some (.num f))
      ∧ (∀ k : String,
          (∀ f, (JValue.toMap rates).lookup k ≠ some (.num f)) → result.Rates.lookup k = none) := by
  have hkeys : ∀ (k : String) (f : Float64),
      (ratesLoop (JValue.toMap rates).entries).lookup k = some f
        ↔ (JValue.toMap rates).lookup k = some (.num f) :=
    fun k f => ratesLoop_lookup (JValue.toMap rates) k f
  refine ⟨Result.mk
      (match (JValue.toMap top).lookup "date" with
        | some (.str dateStr) => dateStr
        | _ => "")
      baseCurrency targetCurrency (ratesLoop (JValue.toMap rates).entries), ?_, hkeys, ?_⟩
  · simp only [ExchangeRateHost.convert2result, decodeRespm, hdoc, hrates]
  · intro k hno
    cases hl : (ratesLoop (JValue.toMap rates).entries).lookup k with
    | none => rfl
    | some f => exact absurd ((hkeys k f).mp hl) (hno f)

/-- C4 on the response `exampleResponseText`: `EUR` and `JPY` are kept with
their numbers, `XAU`, whose value is a string, is not a key of the result. -/
theorem rates_are_the_numeric_entries_witness :
    ∃ result,
      (NewExchangeRateHost "" "").convert2result exampleWorld
          (some { status := 200, body := exampleResponseText }) "USD" ["EUR", "JPY"]
        = .ok result
      ∧ result.Rates.lookup "EUR" = some f91_2
      ∧ result.Rates.lookup "JPY" = some f14400_5
      ∧ result.Rates.lookup "XAU" = none :=
  have h := rates_are_the_numeric_entries (NewExchangeRateHost "" "") exampleWorld 200
    exampleResponseText "USD" ["EUR", "JPY"]
    [("date", .str "2024-01-02"),
      ("rates", .obj [("EUR", .num f91_2), ("JPY", .num f14400_5), ("XAU", .str "n/a")])]
    [("EUR", .num f91_2), ("JPY", .num f14400_5), ("XAU", .str "n/a")]
    rfl rfl
  h.elim fun result hr =>
    ⟨result, hr.1, (hr.2.1 "EUR" f91_2).mpr rfl, (hr.2.1 "JPY" f14400_5).mpr rfl,
      hr.2.2 "XAU" (fun f hf => by
        have hx : (JValue.toMap
            [("EUR", .num f91_2), ("JPY", .num f14400_5), ("XAU", .str "n/a")]).lookup "XAU"
              = some (.str "n/a") := rfl
        rw [hx] at hf
        cases hf)⟩

/-- C3 (the code at the failing input): when the transport returns no
response, `Query` does not return a result: `convert2result` dereferences the
nil response.  So it is for every base, targets and amount in a world whose
network is down, and the one-shot run of `main` ends in that panic. -/
theorem query_crashes_without_response :
    (∀ (n : Nat) (baseCurrency : String) (targetCurrency : List String) (amount : String),
        (NewExchangeRateHost "" "").Query offlineWorld n baseCurrency targetCurrency amount
          = .error .nilDereference)
      ∧ (main offlineWorld
          { CmdLine.none with base := some "USD", target := some "EUR", amount := some "100" }).ending
          = .halted (.crash .nilDereference) := by
  refine ⟨?_, by decide⟩
  intro n b t a
  rfl

/-- The condition of the `if` of `main`, on lengths, in terms of emptiness. -/
theorem oneShot_condition (cfg : Config) :
    (cfg.BaseCurrency.length ≠ 0 ∧ cfg.TargetCurrency.length ≠ 0 ∧ cfg.Amount.length ≠ 0)
      ↔ (cfg.BaseCurrency ≠ "" ∧ cfg.TargetCurrency ≠ [] ∧ cfg.Amount ≠ "") := by
  have hs : ∀ s : String, s.length = 0 ↔ s = "" := by
    intro s
    constructor
    · intro h
      have hd : s.data = [] := List.length_eq_zero.mp h
      exact String.ext hd
    · intro h
      rw [h]
      rfl
  rw [Ne, Ne, Ne, hs, hs, List.length_eq_zero]

/-- A pattern with an `=` starts at the head of a text whose first `=` comes
after `seg` exactly when the part of the pattern before its `=` is `seg` and
the part after it starts the rest of the text. -/
theorem isPrefix_through_eq (pre : List Char) :
    ∀ (post seg rest : List Char), '=' ∉ pre → '=' ∉ seg →
      ((pre ++ '=' :: post) <+: (seg ++ '=' :: rest) ↔ pre = seg ∧ post <+: rest) := by
  induction pre with
  | nil =>
    intro post seg rest _ hseg
    cases seg with
    | nil => simp [List.cons_prefix_cons]
    | cons s seg1 =>
      have hs : s ≠ '=' := fun h => hseg (by simp [h])
      simp [List.cons_prefix_cons, Ne.symm hs]
  | cons p pre1 ih =>
    intro post seg rest hpre hseg
    have hp : p ≠ '=' := fun h => hpre (by simp [h])
    have hpre1 : '=' ∉ pre1 := fun h => hpre (List.mem_cons_of_mem _ h)
    cases seg with
    | nil => simp [List.cons_prefix_cons, hp]
    | cons s seg1 =>
      have hseg1 : '=' ∉ seg1 := fun h => hseg (List.mem_cons_of_mem _ h)
      simp only [List.cons_append, List.cons_prefix_cons, ih post seg1 rest hpre1 hseg1,
        List.cons.injEq]
      tauto

/-- A pattern with an `=` starts nowhere in a text without one. -/
theorem occurrencesIn_of_no_eq (pre post : List Char) :
    ∀ s : List Char, '=' ∉ s → occurrencesIn (pre ++ '=' :: post) s = 0 := by
  intro s
  induction s with
  | nil => intro _; simp [occurrencesIn]
  | cons c cs ih =>
    intro hs
    have hcs : '=' ∉ cs := fun h => hs (List.mem_cons_of_mem _ h)
    have hno : ¬ (pre ++ '=' :: post) <+: (c :: cs) := by
      intro hp
      exact hs (hp.subset (by simp))
    simp only [occurrencesIn, List.isPrefixOf_iff_prefix, hno, if_false, ih hcs]

/-- Counting a pattern with an `=` across the first `=` of a text: one
occurrence at that `=` where the pattern fits around it, plus those after it. -/
theorem occurrencesIn_through_eq (pre post : List Char) (hpre : '=' ∉ pre)
    (rest : List Char) :
    ∀ seg : List Char, '=' ∉ seg →
      occurrencesIn (pre ++ '=' :: post) (seg ++ '=' :: rest)
        = (if pre <:+ seg ∧ post <+: rest then 1 else 0)
          + occurrencesIn (pre ++ '=' :: post) rest := by
  intro seg
  induction seg with
  | nil =>
    intro _
    have hk := isPrefix_through_eq pre post [] rest hpre (by simp)
    simp only [List.nil_append] at hk
    simp only [List.nil_append, occurrencesIn, List.isPrefixOf_iff_prefix, hk, List.suffix_nil]
  | cons c seg1 ih =>
    intro hseg
    have hseg1 : '=' ∉ seg1 := fun h => hseg (List.mem_cons_of_mem _ h)
    have hk := isPrefix_through_eq pre post (c :: seg1) rest hpre hseg
    simp only [List.cons_append] at hk
    have hX : ((pre ++ '=' :: post).isPrefixOf (c :: (seg1 ++ '=' :: rest)) = true)
        ↔ (pre = c :: seg1 ∧ post <+: rest) := by
      rw [List.isPrefixOf_iff_prefix]
      exact hk
    rw [List.cons_append, occurrencesIn, ih hseg1, ← Nat.add_assoc]
    congr 1
    by_cases hp : post <+: rest
    · by_cases he : pre = c :: seg1
      · have hns : ¬ pre <:+ seg1 := by
          intro hsuf
          have hl := hsuf.length_le
          rw [he] at hl
          simp at hl
        have hs : pre <:+ c :: seg1 := by rw [he]
        rw [if_pos (hX.mpr ⟨he, hp⟩), if_neg (fun h => hns h.1), if_pos ⟨hs, hp⟩]
      · have hiff : pre <:+ c :: seg1 ↔ pre <:+ seg1 := by
          rw [List.suffix_cons_iff]
          exact ⟨fun h => h.resolve_left he, Or.inr⟩
        rw [if_neg (fun h => he (hX.mp h).1)]
        by_cases hs : pre <:+ seg1
        · rw [if_pos ⟨hs, hp⟩, if_pos ⟨hiff.mpr hs, hp⟩]
        · rw [if_neg (fun h => hs h.1), if_neg (fun h => hs (hiff.mp h.1))]
    · rw [if_neg (fun h => hp (hX.mp h).2), if_neg (fun h => hp h.2), if_neg (fun h => hp h.2)]

/-- A text that ends a tail also ends anything put before the tail. -/
theorem suffix_append_of_suffix (x pre tail : List Char) (h : pre <:+ tail) :
    pre <:+ x ++ tail :=
  h.trans (List.suffix_append x tail)

/-- A text no longer than a tail that does not end it does not end anything
put before the tail. -/
theorem not_suffix_append (x pre tail : List Char) (hlen : pre.length ≤ tail.length)
    (h : ¬ pre <:+ tail) : ¬ pre <:+ x ++ tail :=
  fun hs => h (List.suffix_of_suffix_length_le hs (List.suffix_append x tail) hlen)

/-- A character that is in no element and not in the separator is not in the
joined string. -/
theorem stringsJoin_not_mem (c : Char) (sep : String) (hsep : c ∉ sep.data) :
    ∀ elems : List String, (∀ x ∈ elems, c ∉ x.data) → c ∉ (stringsJoin elems sep).data := by
  intro elems
  induction elems with
  | nil => intro _; simp [stringsJoin]
  | cons e rest ih =>
    intro h
    cases rest with
    | nil => simpa [stringsJoin] using h e (List.mem_cons_self _ _)
    | cons e2 r =>
      have he := h e (List.mem_cons_self _ _)
      have hr := ih (fun x hx => h x (List.mem_cons_of_mem _ hx))
      simp only [stringsJoin, String.data_append, List.mem_append, not_or]
      exact ⟨⟨he, hsep⟩, hr⟩

/-- The characters of the URL of `Query`, cut at its three `=`. -/
theorem queryURL_data (b : String) (t : List String) (a : String) :
    (queryURL b t a).data
      = "https://api.exchangerate.host/latest?base".data
        ++ '=' :: ((b.data ++ "&symbols".data)
          ++ '=' :: (((stringsJoin t ",").data ++ "&amount".data) ++ '=' :: a.data)) := by
  have h1 : ("https://api.exchangerate.host/latest?base=" : String).data
      = "https://api.exchangerate.host/latest?base".data ++ ['='] := by decide
  have h2 : ("&symbols=" : String).data = "&symbols".data ++ ['='] := by decide
  have h3 : ("&amount=" : String).data = "&amount".data ++ ['='] := by decide
  simp only [queryURL, String.data_append, h1, h2, h3, List.append_assoc, List.singleton_append,
    List.cons_append, List.nil_append]

/-- C8 (counterexample): with the base `USD&amount=5`, the target `EUR` and
the amount `5`, the URL holds `amount=5` at two positions. -/
theorem queryURL_repeats_amount :
    queryURL "USD&amount=5" ["EUR"] "5"
        = "https://api.exchangerate.host/latest?base=USD&amount=5&symbols=EUR&amount=5"
      ∧ occurrences ("amount=" ++ "5") (queryURL "USD&amount=5" ["EUR"] "5") = 2 := by
  refine ⟨by decide, by decide⟩

/-- C8 (as amended): the URL of `Query` is
`https://api.exchangerate.host/latest?` followed by `base=<base>`, `&`,
`symbols=<targets joined by ','>`, `&` and `amount=<amount>`, nothing escaped;
where neither the base, nor a target, nor the amount holds the character `=`,
each of the three substrings occurs at exactly one position of the URL. -/
theorem queryURL_components (b : String) (t : List String) (a : String)
    (hb : '=' ∉ b.data) (ht : ∀ x ∈ t, '=' ∉ x.data) (ha : '=' ∉ a.data) :
    queryURL b t a
        = "https://api.exchangerate.host/latest?" ++ ("base=" ++ b) ++ "&"
          ++ ("symbols=" ++ stringsJoin t ",") ++ "&" ++ ("amount=" ++ a)
      ∧ occurrences ("base=" ++ b) (queryURL b t a) = 1
      ∧ occurrences ("symbols=" ++ stringsJoin t ",") (queryURL b t a) = 1
      ∧ occurrences ("amount=" ++ a) (queryURL b t a) = 1 := by
  have hj : '=' ∉ (stringsJoin t ",").data := stringsJoin_not_mem '=' "," (by decide) t ht
  have hP : '=' ∉ "https://api.exchangerate.host/latest?base".data := by decide
  have hS : '=' ∉ b.data ++ "&symbols".data := by
    simp only [List.mem_append, not_or]
    exact ⟨hb, by decide⟩
  have hA : '=' ∉ (stringsJoin t ",").data ++ "&amount".data := by
    simp only [List.mem_append, not_or]
    exact ⟨hj, by decide⟩
  have count : ∀ pre post : List Char, '=' ∉ pre →
      occurrencesIn (pre ++ '=' :: post) (queryURL b t a).data
        = (if pre <:+ "https://api.exchangerate.host/latest?base".data
              ∧ post <+: (b.data ++ "&symbols".data)
                  ++ '=' :: (((stringsJoin t ",").data ++ "&amount".data) ++ '=' :: a.data)
            then 1 else 0)
          + ((if pre <:+ b.data ++ "&symbols".data
                ∧ post <+: ((stringsJoin t ",").data ++ "&amount".data) ++ '=' :: a.data
              then 1 else 0)
            + ((if pre <:+ (stringsJoin t ",").data ++ "&amount".data ∧ post <+: a.data
                then 1 else 0) + 0)) := by
    intro pre post hpre
    rw [queryURL_data, occurrencesIn_through_eq pre post hpre _ _ hP,
      occurrencesIn_through_eq pre post hpre _ _ hS,
      occurrencesIn_through_eq pre post hpre _ _ hA, occurrencesIn_of_no_eq pre post _ ha]
  refine ⟨?_, ?_, ?_, ?_⟩
  · apply String.ext
    simp only [queryURL, String.data_append, List.append_assoc]
    rfl
  · have hpat : ("base=" ++ b : String).data = "base".data ++ '=' :: b.data := by
      simp only [String.data_append]
      rfl
    unfold occurrences
    rw [hpat, count _ _ (by decide)]
    have h1 : "base".data <:+ "https://api.exchangerate.host/latest?base".data := by decide
    have h2 : b.data <+: (b.data ++ "&symbols".data)
        ++ '=' :: (((stringsJoin t ",").data ++ "&amount".data) ++ '=' :: a.data) := by
      rw [List.append_assoc]
      exact List.prefix_append _ _
    have h3 : ¬ "base".data <:+ b.data ++ "&symbols".data :=
      not_suffix_append _ _ _ (by decide) (by decide)
    have h4 : ¬ "base".data <:+ (stringsJoin t ",").data ++ "&amount".data :=
      not_suffix_append _ _ _ (by decide) (by decide)
    simp [h1, h2, h3, h4]
  · have hpat : ("symbols=" ++ stringsJoin t "," : String).data
        = "symbols".data ++ '=' :: (stringsJoin t ",").data := by
      simp only [String.data_append]
      rfl
    unfold occurrences
    rw [hpat, count _ _ (by decide)]
    have h1 : ¬ "symbols".data <:+ "https://api.exchangerate.host/latest?base".data := by decide
    have h2 : "symbols".data <:+ b.data ++ "&symbols".data :=
      suffix_append_of_suffix _ _ _ (by decide)
    have h3 : (stringsJoin t ",").data
        <+: ((stringsJoin t ",").data ++ "&amount".data) ++ '=' :: a.data := by
      rw [List.append_assoc]
      exact List.prefix_append _ _
    have h4 : ¬ "symbols".data <:+ (stringsJoin t ",").data ++ "&amount".data :=
      not_suffix_append _ _ _ (by decide) (by decide)
    simp [h1, h2, h3, h4]
  · have hpat : ("amount=" ++ a : String).data = "amount".data ++ '=' :: a.data := by
      simp only [String.data_append]
      rfl
    unfold occurrences
    rw [hpat, count _ _ (by decide)]
    have h1 : ¬ "amount".data <:+ "https://api.exchangerate.host/latest?base".data := by decide
    have h2 : ¬ "amount".data <:+ b.data ++ "&symbols".data :=
      not_suffix_append _ _ _ (by decide) (by decide)
    have h3 : "amount".data <:+ (stringsJoin t ",").data ++ "&amount".data :=
      suffix_append_of_suffix _ _ _ (by decide)
    simp [h1, h2, h3]

/-- C8 (as amended) at the base `USD`, the targets `EUR`, `JPY` and the amount `100`. -/
theorem queryURL_components_witness :
    queryURL "USD" ["EUR", "JPY"] "100"
        = "https://api.exchangerate.host/latest?base=USD&symbols=EUR,JPY&amount=100"
      ∧ occurrences "base=USD" (queryURL "USD" ["EUR", "JPY"] "100") = 1
      ∧ occurrences "symbols=EUR,JPY" (queryURL "USD" ["EUR", "JPY"] "100") = 1
      ∧ occurrences "amount=100" (queryURL "USD" ["EUR", "JPY"] "100") = 1 :=
  have h := queryURL_components "USD" ["EUR", "JPY"] "100" (by decide) (by decide) (by decide)
  ⟨h.1.trans (by decide), h.2.1, h.2.2.1, h.2.2.2⟩

/-! ## Further properties -/

/-- On every response, whatever its status code and body, `Query` returns a
result with the base and the targets of the call, provided the proxy URL (if
any) parses and the request can be built; where the body does not start with
a JSON value the date is empty and there are no rates. -/
theorem query_returns_result_on_response (erh : ExchangeRateHost) (w : World) (n : Nat)
    (b : String) (t : List String) (a : String) (status : Nat) (body : String)
    (hproxy : erh.ProxyURL = "" ∨ w.urlParse erh.ProxyURL = true)
    (hreq : w.newRequest (queryURL b t a) = true)
    (hresp : w.http n (queryURL b t a) = .response status body) :
    ∃ result, erh.Query w n b t a = .ok result ∧ result.Base = b ∧ result.Target = t
      ∧ ((∃ e, w.jsonValue body = .error e) → result.Date = "" ∧ result.Rates = ∅) := by
  have hguard : ¬ (erh.ProxyURL ≠ "" ∧ w.urlParse erh.ProxyURL = false) := by
    rintro ⟨h1, h2⟩
    rcases hproxy with h | h
    · exact h1 h
    · rw [h] at h2
      cases h2
  have hreq1 : ¬ w.newRequest (queryURL b t a) = false := by
    rw [hreq]
    decide
  have hq : erh.Query w n b t a
      = erh.convert2result w (some { status := status, body := body }) b t := by
    simp only [ExchangeRateHost.Query, if_neg hguard, if_neg hreq1, hresp]
  rw [hq]
  refine ⟨_, rfl, rfl, rfl, ?_⟩
  rintro ⟨e, hnone⟩
  simp only [decodeRespm, hnone]
  exact ⟨rfl, rfl⟩

/-- A response with status 500 and a body that is not JSON, in `exampleWorld`. -/
theorem query_returns_result_on_response_witness :
    ∃ result,
      (NewExchangeRateHost "" "").Query
          { exampleWorld with http := fun _ _ => .response 500 "Internal Server Error" }
          0 "USD" ["EUR"] "100" = .ok result
      ∧ result.Base = "USD" ∧ result.Target = ["EUR"] ∧ result.Date = ""
      ∧ result.Rates = ∅ :=
  have h := query_returns_result_on_response (NewExchangeRateHost "" "")
    { exampleWorld with http := fun _ _ => .response 500 "Internal Server Error" }
    0 "USD" ["EUR"] "100" 500 "Internal Server Error" (Or.inl rfl) (by decide) (by decide)
  h.elim fun result hr =>
    ⟨result, hr.1, hr.2.1, hr.2.2.1, (hr.2.2.2 ⟨.jsonMalformed, rfl⟩).1,
      (hr.2.2.2 ⟨.jsonMalformed, rfl⟩).2⟩

/-- The first record of a CSV source is dropped by `readCSV`: the header is
never among the records returned. -/
theorem readCSV_drops_header (w : World) (content : String) (header : List String)
    (rows : List (List String)) (h : w.csvReadAll content = .ok (header :: rows)) :
    CurrencyList.readCSV w content = .ok rows := by
  simp only [CurrencyList.readCSV, h]

/-- The embedded table of `exampleWorld` without its header. -/
theorem readCSV_drops_header_witness :
    CurrencyList.readCSV exampleWorld exampleCurrenciesData
      = .ok [["€", "EUR", "Euro", "Europe"], ["$", "USD", "US Dollar", "United States"]] :=
  readCSV_drops_header exampleWorld exampleCurrenciesData ["symbol", "iso", "name", "region"]
    [["€", "EUR", "Euro", "Europe"], ["$", "USD", "US Dollar", "United States"]] (by decide)

/-- Splitting always gives at least one piece. -/
theorem splitOnChar_ne_nil (sep : Char) (cs : List Char) : splitOnChar sep cs ≠ [] := by
  cases cs with
  | nil => simp [splitOnChar]
  | cons c rest =>
    unfold splitOnChar
    split_ifs
    · simp
    · cases splitOnChar sep rest <;> simp

/-- Joining the pieces of a split with the separator gives the text back. -/
theorem stringsJoin_splitOnChar (cs : List Char) :
    (stringsJoin ((splitOnChar ',' cs).map String.mk) ",").data = cs := by
  induction cs with
  | nil => rfl
  | cons c rest ih =>
    unfold splitOnChar
    by_cases hc : c = ','
    · rw [if_pos hc]
      cases hs : splitOnChar ',' rest with
      | nil => exact absurd hs (splitOnChar_ne_nil ',' rest)
      | cons p ps =>
        rw [hs] at ih
        simp only [List.map_cons, stringsJoin, String.data_append]
        simp only [List.map_cons] at ih
        rw [ih, hc]
        rfl
    · rw [if_neg hc]
      cases hs : splitOnChar ',' rest with
      | nil => exact absurd hs (splitOnChar_ne_nil ',' rest)
      | cons p ps =>
        rw [hs] at ih
        cases ps with
        | nil =>
          simp only [List.map_cons, List.map_nil, stringsJoin] at ih ⊢
          rw [← ih]
        | cons q qs =>
          simp only [List.map_cons, stringsJoin, String.data_append] at ih ⊢
          rw [← ih]
          rfl

/-- No piece of a split holds the separator. -/
theorem splitOnChar_no_sep (sep : Char) (cs : List Char) :
    ∀ piece ∈ splitOnChar sep cs, sep ∉ piece := by
  induction cs with
  | nil =>
    intro piece hp
    simp only [splitOnChar, List.mem_singleton] at hp
    rw [hp]
    simp
  | cons c rest ih =>
    intro piece hp
    unfold splitOnChar at hp
    by_cases hc : c = sep
    · rw [if_pos hc] at hp
      rcases List.mem_cons.mp hp with h | h
      · rw [h]; simp
      · exact ih piece h
    · rw [if_neg hc] at hp
      cases hs : splitOnChar sep rest with
      | nil => exact absurd hs (splitOnChar_ne_nil sep rest)
      | cons p ps =>
        rw [hs] at hp ih
        rcases List.mem_cons.mp hp with h | h
        · rw [h]
          intro hmem
          rcases List.mem_cons.mp hmem with h1 | h1
          · exact hc h1.symm
          · exact ih p (List.mem_cons_self _ _) h1
        · exact ih piece (List.mem_cons_of_mem _ h)

/-- The split of `flags` is exact: joining the targets with `,` gives the
`-target` string back, character by character, and no target holds a comma. -/
theorem stringsSplit_exact (s : String) :
    stringsJoin (stringsSplit s ',') "," = s
      ∧ ∀ piece ∈ stringsSplit s ',', ',' ∉ piece.data := by
  constructor
  · apply String.ext
    exact stringsJoin_splitOnChar s.data
  · intro piece hp
    unfold stringsSplit at hp
    obtain ⟨l, hl, rfl⟩ := List.mem_map.mp hp
    exact splitOnChar_no_sep ',' s.data l hl

/-- The loop over `rates` gives the same rates in whatever order the entries of
the map are visited. -/
theorem ratesLoop_any_order (m : GoMap JValue) (order : List (Σ _ : String, JValue))
    (hperm : order.Perm m.entries) (k : String) :
    (ratesLoop order).lookup k = (ratesLoop m.entries).lookup k := by
  have hnd : order.NodupKeys := (List.perm_nodupKeys hperm).mpr m.nodupKeys
  have hl : List.dlookup k order = List.dlookup k m.entries :=
    List.perm_dlookup k hnd m.nodupKeys hperm
  apply Option.ext
  intro f
  unfold ratesLoop
  simp only [Option.mem_def]
  rw [foldl_ratesStep_lookup order ∅ hnd k f, foldl_ratesStep_lookup m.entries ∅ m.nodupKeys k f,
    hl]

/-- The rates of `exampleResponseDoc`, visited in another order. -/
theorem ratesLoop_any_order_witness :
    (ratesLoop [⟨"JPY", .num f14400_5⟩, ⟨"EUR", .num f91_2⟩, ⟨"XAU", .str "n/a"⟩]).lookup "EUR"
      = (ratesLoop (JValue.toMap
          [("EUR", .num f91_2), ("JPY", .num f14400_5), ("XAU", .str "n/a")]).entries).lookup
            "EUR" :=
  ratesLoop_any_order
    (JValue.toMap [("EUR", .num f91_2), ("JPY", .num f14400_5), ("XAU", .str "n/a")])
    [⟨"JPY", .num f14400_5⟩, ⟨"EUR", .num f91_2⟩, ⟨"XAU", .str "n/a"⟩]
    (@List.perm_append_comm (Σ _ : String, JValue)
      [⟨"JPY", .num f14400_5⟩, ⟨"EUR", .num f91_2⟩] [⟨"XAU", .str "n/a"⟩])
    "EUR"

/-- Where the base has to be picked and the finder is cancelled, `interactive`
ends the program with exit status 1 before anything is printed or queried. -/
theorem interactive_exits_on_cancelled_finder (w : World) (cfg : Config) (cl : CurrencyList)
    (ep : Option Endpoint) (e : GoError)
    (hbase : cfg.BaseCurrency = "") (hfind : w.find cl.currencies = .error e) :
    interactive w cfg cl ep = { events := [], ending := .halted (.exit 1) } := by
  simp only [interactive, pickBase, hbase, if_true, CurrencyList.FuzzGetCode, hfind]

/-- The world `exampleWorld` with a finder that is cancelled. -/
theorem interactive_exits_on_cancelled_finder_witness :
    interactive { exampleWorld with find := fun _ => .error (.other "abort") }
        Config.zero exampleCatalog none
      = { events := [], ending := .halted (.exit 1) } :=
  interactive_exits_on_cancelled_finder
    { exampleWorld with find := fun _ => .error (.other "abort") }
    Config.zero exampleCatalog none (.other "abort") rfl rfl

/-- With an endpoint name other than `exchangerate.host`, the lookup in the
endpoint map gives the nil interface, and a one-shot run panics on the call of
`Query` before any query is issued. -/
theorem unknown_endpoint_crashes_one_shot (w : World) (cfg : Config) (cl : CurrencyList)
    (hinit : NewCurrencyList.Init w cfg.CurCodeFile = .ok cl)
    (hep : cfg.Endpoint ≠ "exchangerate.host")
    (hmode : cfg.BaseCurrency ≠ "" ∧ cfg.TargetCurrency ≠ [] ∧ cfg.Amount ≠ "") :
    mainWith w cfg = { events := [], ending := .halted (.crash .nilDereference) } := by
  have hlook : (CreateEndpoints cfg.ApiKey cfg.ProxyURL).lookup cfg.Endpoint = none := by
    unfold CreateEndpoints
    rw [AList.lookup_insert_ne hep]
    rfl
  simp only [mainWith, hinit, hlook, runMode, if_pos ((oneShot_condition cfg).mpr hmode),
    oneShot, queryAndPrint]

/-- The endpoint `fixer.io` in `exampleWorld`. -/
theorem unknown_endpoint_crashes_one_shot_witness :
    mainWith exampleWorld
        { BaseCurrency := "USD", TargetCurrency := ["EUR"], Amount := "100",
          CurCodeFile := "", ProxyURL := "", Endpoint := "fixer.io", ApiKey := "" }
      = { events := [], ending := .halted (.crash .nilDereference) } :=
  unknown_endpoint_crashes_one_shot exampleWorld
    { BaseCurrency := "USD", TargetCurrency := ["EUR"], Amount := "100",
      CurCodeFile := "", ProxyURL := "", Endpoint := "fixer.io", ApiKey := "" }
    exampleCatalog (by decide) (by decide) ⟨by decide, by decide, by decide⟩

end Fxrq
